import Mathlib

/-!
Verification development for the BackGym-Trade trading environments
(`bg_trade/envs.py`).

The per-step protocol of `TradingEnvironment` (and the shared structure of its
`TradingEnvNorm` / `TradingEnvMaxScale` subclasses) is embedded as a pure state
transition over rational-valued ledgers and feature tables.  The ledger
(`Portfolio`) and its `make_trade` / `reset` operations live outside this
repository's environment module, so they are kept abstract: the environment
configuration carries them as opaque functions and every theorem quantifies
over them.  Failures that the Python code signals by raising (assertion errors
in `format_action`, out-of-range row lookups in `pandas.loc`, `profits[-1]` on
an empty history) are modelled by `Option`: a step returns its post-mutation
state together with `none` when the original code would raise at the
corresponding program point, so mutations that happen before the raise are
preserved, exactly as in the mutable Python objects.

Feature tables are modelled as one list of rows per asset, each row holding
the non-`date` numeric columns in dataframe order
(`close, volume, ma_30, ma_5, volatil, diff, diff_ma_5`), so `close` is
column 0.  The reward and price-per-share formulas of the subclasses, which
use `sqrt` and `log`, are embedded separately over the reals.
-/

namespace BgTrade

/-- Python's `round(x, 9)` rounds half to even; `roundHalfEven` is that
rounding to an integer, on exact rationals. -/
def roundHalfEven (q : ℚ) : ℤ :=
  let f : ℤ := ⌊q⌋
  if q - f < 1/2 then f
  else if 1/2 < q - f then f + 1
  else if f % 2 = 0 then f else f + 1

/-- `round(x, 9)` from `TradingEnvironment.step`'s insolvency test. -/
def round9 (q : ℚ) : ℚ :=
  (roundHalfEven (q * 10 ^ 9) : ℚ) / 10 ^ 9

/-- Readable surface of the external ledger (`bg_trade.portfolio.Portfolio`):
`balance`, `net_worth`, `positions_full` (asset → quantity), `positions_norm`
(asset → exposure fraction) and the `profits` history. -/
structure Portfolio where
  balance : ℚ
  net_worth : ℚ
  positions_full : List (String × ℚ)
  positions_norm : List (String × ℚ)
  profits : List ℚ
deriving DecidableEq

/-- An action passed to `step`: either a mapping (Python `dict`) or a dense
ordered sequence of quantities. -/
inductive Action where
  | dict (m : List (String × ℚ))
  | seq (q : List ℚ)
deriving DecidableEq

/-- Environment construction data.  `stocks` is the per-asset feature table
(in dict insertion order); `make_trade` and `portfolio_reset` are the
operations of the external ledger collaborator (they already close over the
construction-time `fee`). -/
structure EnvConfig where
  stocks : List (String × List (List ℚ))
  balance_init : ℚ
  make_trade : Portfolio → List (String × ℚ) → List (String × ℚ) → Portfolio
  portfolio_reset : Portfolio → Portfolio

/-- The mutable episode state of `TradingEnvironment`. -/
structure EnvState where
  current_step : ℕ
  agent : Portfolio
  long : Portfolio
  balance : ℚ
  net_worth : List ℚ
  net_worth_long : List ℚ
  shares_held : ℚ
deriving DecidableEq

/-- The `(observation, reward, done)` triple returned by a completed `step`
call of the base environment (`info` is always the empty dict and is
omitted). -/
structure StepOut where
  obs : List (List ℚ)
  reward : ℚ
  done : Bool
deriving DecidableEq

/-- `self.positions = ( *[t for t in self.stocks.keys()], '_out', )`. -/
def positions (cfg : EnvConfig) : List String :=
  cfg.stocks.map Prod.fst ++ ["_out"]

/-- `self.n_obs = len(self.stocks[self.positions[0]])`: the row count of the
first asset's table. -/
def n_obs (cfg : EnvConfig) : ℕ :=
  match cfg.stocks with
  | [] => 0
  | (_, table) :: _ => table.length

/-- `TradingEnvironment.format_action`: zips the fixed position ordering with
the dense quantities; the `assert len(positions) == len(quantities)` is
modelled by returning `none` on length mismatch. -/
def format_action (ps : List String) (quantities : List ℚ) :
    Option (List (String × ℚ)) :=
  if ps.length = quantities.length then some (ps.zip quantities) else none

/-- The action coercion at the top of `step`: a `dict` is forwarded verbatim,
anything else goes through `format_action`. -/
def action_mapping (cfg : EnvConfig) : Action → Option (List (String × ℚ))
  | .dict m => some m
  | .seq q => format_action (positions cfg) q

/-- `prices = {ticker: df.loc[self.current_step, 'close'] for ...}`; `none`
models the `KeyError` raised by an out-of-range `loc` lookup. -/
def prices_at : List (String × List (List ℚ)) → ℕ → Option (List (String × ℚ))
  | [], _ => some []
  | (t, table) :: rest, i =>
    match table[i]? with
    | none => none
    | some row =>
      match row[0]? with
      | none => none
      | some c =>
        match prices_at rest i with
        | none => none
        | some ps => some ((t, c) :: ps)

/-- `actions_long = {ticker: 1 for ticker in self.stocks.keys()}`. -/
def actions_long (cfg : EnvConfig) : List (String × ℚ) :=
  cfg.stocks.map (fun p => (p.1, (1 : ℚ)))

/-- `TradingEnvironment._next_observation`: the feature row of every asset at
the given cursor; `none` models the `KeyError` of an out-of-range lookup. -/
def _next_observation : List (String × List (List ℚ)) → ℕ → Option (List (List ℚ))
  | [], _ => some []
  | (_, table) :: rest, i =>
    match table[i]? with
    | none => none
    | some row =>
      match _next_observation rest i with
      | none => none
      | some obs => some (row :: obs)

/-- `TradingEnvironment._take_action`: prices are read at the pre-advance
cursor, both ledgers trade, both net-worth trajectories are appended to, and
the cached `balance` / `shares_held` are refreshed.  The cursor is *not*
advanced here. -/
def _take_action (cfg : EnvConfig) (s : EnvState) (act : List (String × ℚ)) :
    Option EnvState :=
  match prices_at cfg.stocks s.current_step with
  | none => none
  | some prices =>
    let agent := cfg.make_trade s.agent act prices
    let long := cfg.make_trade s.long (actions_long cfg) prices
    some { s with
      agent := agent
      long := long
      balance := agent.balance
      net_worth := s.net_worth ++ [agent.net_worth]
      net_worth_long := s.net_worth_long ++ [long.net_worth]
      shares_held := (agent.positions_full.map Prod.snd).sum }

/-- `TradingEnvironment.step`.  The returned state carries every mutation the
Python call performed before returning or raising; the second component is
`none` when the call would raise (malformed dense action, out-of-range row
lookup, or `profits[-1]` on an empty history). -/
def step (cfg : EnvConfig) (s : EnvState) (a : Action) :
    EnvState × Option StepOut :=
  match action_mapping cfg a with
  | none => (s, none)
  | some act =>
    match _take_action cfg s act with
    | none => (s, none)
    | some s0 =>
      let s1 : EnvState := { s0 with current_step := s.current_step + 1 }
      match _next_observation cfg.stocks s1.current_step with
      | none => (s1, none)
      | some obs =>
        match s1.agent.profits.getLast?, s1.long.profits.getLast? with
        | some ap, some lp =>
          (s1, some ⟨obs, (ap - lp) / cfg.balance_init,
            if round9 s1.balance < 0 ∨
                (s1.current_step : ℤ) ≥ (n_obs cfg : ℤ) - 1
            then true else false⟩)
        | _, _ => (s1, none)

/-- `TradingEnvironment.reset`: cursor back to 1, both ledgers reset, both
net-worth trajectories reseeded with `balance_init`; returns the first
observation alongside the new state. -/
def reset (cfg : EnvConfig) (s : EnvState) :
    EnvState × Option (List (List ℚ)) :=
  let s' : EnvState :=
    { current_step := 1
      agent := cfg.portfolio_reset s.agent
      long := cfg.portfolio_reset s.long
      balance := cfg.balance_init
      net_worth := [cfg.balance_init]
      net_worth_long := [cfg.balance_init]
      shares_held := 0 }
  (s', _next_observation cfg.stocks 1)

/-- The episode-termination predicate of a state: it holds exactly when a
`step` call arriving at this state reports `done = true`
(`round(balance, 9) < 0 or current_step >= n_obs - 1`). -/
def done_of (cfg : EnvConfig) (s : EnvState) : Prop :=
  round9 s.balance < 0 ∨ (s.current_step : ℤ) ≥ (n_obs cfg : ℤ) - 1

/-- A sequence of `step` calls, each required to complete without raising. -/
def run_steps (cfg : EnvConfig) : EnvState → List Action → Option EnvState
  | s, [] => some s
  | s, a :: rest =>
    match step cfg s a with
    | (s', some _) => run_steps cfg s' rest
    | (_, none) => none

/-! ## `TradingEnvMaxScale`: running-maximum scalers -/

/-- One pass of `scalers[scalers==0] = df.drop('date', axis=1).values[i][scalers==0]`:
zero components take the value of the fresh row at the same position. -/
def replace_zeros (scalers row : List ℚ) : List ℚ :=
  List.zipWith (fun sv rv => if sv = 0 then rv else sv) scalers row

/-- The `while 0. in scalers` loop of `_configure_scalers_init` for one asset,
returning the final scaler vector together with the final value of the shared
scan index `i`.  A lookup past the table end models the `IndexError` the
Python loop hits there; the fuel argument only bounds recursion and is chosen
large enough (one more than the row count) that the out-of-range lookup always
fires first. -/
def scan_scalers (rows : List (List ℚ)) : ℕ → List ℚ → ℕ → Option (List ℚ × ℕ)
  | 0, scalers, i => if (0 : ℚ) ∈ scalers then none else some (scalers, i)
  | fuel + 1, scalers, i =>
    if (0 : ℚ) ∈ scalers then
      match rows[i + 1]? with
      | none => none
      | some row => scan_scalers rows fuel (replace_zeros scalers row) (i + 1)
    else some (scalers, i)

/-- `TradingEnvMaxScale._configure_scalers_init`.  Note that `i = 0 + start`
is assigned once before the `for ticker, df in stocks.items()` loop, so the
scan index carries over from each asset to the next. -/
def _configure_scalers_init :
    List (String × List (List ℚ)) → ℕ → Option (List (String × List ℚ))
  | [], _ => some []
  | (t, rows) :: rest, i =>
    match rows[i]? with
    | none => none
    | some seed =>
      match scan_scalers rows (rows.length + 1) seed i with
      | none => none
      | some (sc, j) =>
        match _configure_scalers_init rest j with
        | none => none
        | some tail => some ((t, sc) :: tail)

/-- The scaler initialization performed by `TradingEnvMaxScale.reset`:
`self._configure_scalers_init(self.stocks, self.current_step - 1)` with
`self.current_step = 1`. -/
def maxscale_reset_scalers (stocks : List (String × List (List ℚ))) :
    Option (List (String × List ℚ)) :=
  _configure_scalers_init stocks (1 - 1)

/-- `TradingEnvMaxScale._update_scalers`:
`scalers[:] = [max(scalers[i], obs[i]) for i in np.arange(len(scalers))]`;
`none` models the `IndexError` when the observed row is shorter than the
scaler vector. -/
def _update_scalers (scalers obs : List ℚ) : Option (List ℚ) :=
  if obs.length < scalers.length then none
  else some (List.zipWith max scalers obs)

/-- `obs = list(_obs.values / self.scalers[ticker])`: elementwise division of
the raw feature row by the current scaler vector. -/
def scale_row (row scalers : List ℚ) : List ℚ :=
  List.zipWith (fun x sv => x / sv) row scalers

/-- The per-ticker body of `TradingEnvMaxScale._next_observation` restricted
to the seven scaled feature components: the row is scaled by the *current*
scalers and only afterwards are the scalers updated with that row
(`full_observation.append(obs)` before `self._update_scalers(...)`). -/
def maxscale_ticker_obs (row scalers : List ℚ) :
    Option (List ℚ × List ℚ) :=
  match _update_scalers scalers row with
  | none => none
  | some s' => some (scale_row row scalers, s')

/-! ## Real-valued reward and price-per-share formulas of the subclasses -/

/-- The ledger attributes read by `_reward_fn`, over the reals. -/
structure PortfolioR where
  net_worth : ℝ
  positions_full : List (String × ℝ)
  profits : List ℝ

/-- `TradingEnvNorm._reward_fn` (textually identical in
`TradingEnvMaxScale`): relative profit edge plus relative net-worth edge plus
one `-penalty` per asset held below 1 unit; `none` models `profits[-1]`
raising on an empty history. -/
noncomputable def _reward_fn (n_stocks : ℕ) (agent long : PortfolioR) :
    Option ℝ :=
  match agent.profits.getLast?, long.profits.getLast? with
  | some ap, some lp =>
    some (
      (ap - lp) / |lp|
      + (agent.net_worth - long.net_worth) / |long.net_worth|
      + (((agent.positions_full.map Prod.snd).filter
            fun i => decide (i < 1)).map
          fun _ => -((1 / Real.sqrt (n_stocks + 1)) + 1)).sum)
  | _, _ => none

/-- `TradingEnvNorm._price_per_share` (textually identical in
`TradingEnvMaxScale`). -/
noncomputable def _price_per_share (net_worth balance shares portion : ℝ) : ℝ :=
  if 1 ≤ shares then
    if (net_worth - balance) * portion / shares = 0 then 0
    else Real.log ((net_worth - balance) * portion / shares)
  else 0

/-! ## A concrete environment instance

One asset `"aaa"`, three feature rows with `close = 1, 2, 3`, initial balance
100, and a trivially solvent ledger whose `make_trade` only appends a zero
profit.  It is used to instantiate the universally quantified theorems below
on explicit inputs. -/

/-- Three feature rows for the single asset; `close` is column 0. -/
def exRows : List (List ℚ) :=
  [[1, 1, 1, 1, 1, 1, 1], [2, 2, 2, 2, 2, 2, 2], [3, 3, 3, 3, 3, 3, 3]]

/-- The freshly reset ledger: balance and net worth 100, no holdings, empty
profit history. -/
def exP0 : Portfolio :=
  ⟨100, 100, [("aaa", 0)], [("aaa", 0)], []⟩

/-- The ledger after one trade of the example ledger engine. -/
def exP1 : Portfolio :=
  ⟨100, 100, [("aaa", 0)], [("aaa", 0)], [0]⟩

/-- The ledger after two trades of the example ledger engine. -/
def exP2 : Portfolio :=
  ⟨100, 100, [("aaa", 0)], [("aaa", 0)], [0, 0]⟩

/-- An example ledger engine: every trade leaves balance, net worth and
holdings unchanged and records a zero profit. -/
def exTrade (p : Portfolio) (_ : List (String × ℚ)) (_ : List (String × ℚ)) :
    Portfolio :=
  { p with profits := p.profits ++ [0] }

/-- The example environment configuration. -/
def exCfg : EnvConfig :=
  ⟨[("aaa", exRows)], 100, exTrade, fun _ => exP0⟩

/-- The example state right after `reset`: cursor 1, trajectories seeded with
the initial balance. -/
def exS0 : EnvState :=
  ⟨1, exP0, exP0, 100, [100], [100], 0⟩

/-- The example state after one `step`: cursor 2 = `n_obs - 1`, so this state
is terminal by data exhaustion. -/
def exS1 : EnvState :=
  ⟨2, exP1, exP1, 100, [100, 100], [100, 100], 0⟩

/-- The state produced by calling `step` once more on the terminal `exS1`:
the trades execute, the trajectories grow, and the cursor advances to 3
before the observation lookup fails. -/
def exS2 : EnvState :=
  ⟨3, exP2, exP2, 100, [100, 100, 100], [100, 100, 100], 0⟩

/-- A well-formed dense-equivalent mapping action for the example. -/
def exAct : Action :=
  .dict [("aaa", 1), ("_out", 0)]

/-- The output of the first example `step`: next observation is row 2, zero
reward, and `done = true` from data exhaustion. -/
def exOut : StepOut :=
  ⟨[[3, 3, 3, 3, 3, 3, 3]], 0, true⟩

/-! ## General lemmas about the step protocol -/

/-- A `step` whose action fails to format returns `none` with the state
untouched. -/
theorem step_of_format_none (cfg : EnvConfig) (s : EnvState) (a : Action)
    (h : action_mapping cfg a = none) : step cfg s a = (s, none) := by
  unfold step
  rw [h]

/-- Whenever formatting and the price lookup succeed, the post-call state is
fully determined: cursor advanced by one, both ledgers traded at the
pre-advance prices, both trajectories appended. -/
theorem step_fst_of_some (cfg : EnvConfig) (s : EnvState) (a : Action)
    (act pr : List (String × ℚ))
    (hm : action_mapping cfg a = some act)
    (hp : prices_at cfg.stocks s.current_step = some pr) :
    (step cfg s a).1 =
      { s with
        current_step := s.current_step + 1
        agent := cfg.make_trade s.agent act pr
        long := cfg.make_trade s.long (actions_long cfg) pr
        balance := (cfg.make_trade s.agent act pr).balance
        net_worth := s.net_worth ++ [(cfg.make_trade s.agent act pr).net_worth]
        net_worth_long :=
          s.net_worth_long ++ [(cfg.make_trade s.long (actions_long cfg) pr).net_worth]
        shares_held :=
          ((cfg.make_trade s.agent act pr).positions_full.map Prod.snd).sum } := by
  unfold step _take_action
  rw [hm, hp]
  dsimp only
  cases _next_observation cfg.stocks (s.current_step + 1) with
  | none => rfl
  | some obs =>
    cases (cfg.make_trade s.agent act pr).profits.getLast? with
    | none => rfl
    | some ap =>
      cases (cfg.make_trade s.long (actions_long cfg) pr).profits.getLast? with
      | none => rfl
      | some lp => rfl

/-- Inversion of a completed `step` call: it determines the formatted action,
the prices, the successor state, the observation row index, and the value of
the `done` flag. -/
theorem step_some_inv (cfg : EnvConfig) (s s' : EnvState) (a : Action)
    (out : StepOut) (h : step cfg s a = (s', some out)) :
    ∃ act pr,
      action_mapping cfg a = some act ∧
      prices_at cfg.stocks s.current_step = some pr ∧
      s' =
        { s with
          current_step := s.current_step + 1
          agent := cfg.make_trade s.agent act pr
          long := cfg.make_trade s.long (actions_long cfg) pr
          balance := (cfg.make_trade s.agent act pr).balance
          net_worth := s.net_worth ++ [(cfg.make_trade s.agent act pr).net_worth]
          net_worth_long :=
            s.net_worth_long ++
              [(cfg.make_trade s.long (actions_long cfg) pr).net_worth]
          shares_held :=
            ((cfg.make_trade s.agent act pr).positions_full.map Prod.snd).sum } ∧
      _next_observation cfg.stocks (s.current_step + 1) = some out.obs ∧
      out.done =
        (if round9 (cfg.make_trade s.agent act pr).balance < 0 ∨
            ((s.current_step + 1 : ℕ) : ℤ) ≥ (n_obs cfg : ℤ) - 1
         then true else false) := by
  unfold step _take_action at h
  cases hm : action_mapping cfg a with
  | none => rw [hm] at h; simp at h
  | some act =>
    rw [hm] at h
    cases hp : prices_at cfg.stocks s.current_step with
    | none => rw [hp] at h; simp at h
    | some pr =>
      rw [hp] at h
      dsimp only at h
      cases hobs : _next_observation cfg.stocks (s.current_step + 1) with
      | none => rw [hobs] at h; simp at h
      | some obs =>
        rw [hobs] at h
        cases hga : (cfg.make_trade s.agent act pr).profits.getLast? with
        | none => rw [hga] at h; simp at h
        | some ap =>
          rw [hga] at h
          cases hgl :
              (cfg.make_trade s.long (actions_long cfg) pr).profits.getLast? with
          | none => rw [hgl] at h; simp at h
          | some lp =>
            rw [hgl] at h
            injection h with h1 h2
            injection h2 with h2
            subst h1
            subst h2
            exact ⟨act, pr, rfl, rfl, rfl, rfl, rfl⟩

/-- Any completed `step` call appends exactly one entry to each net-worth
trajectory. -/
theorem step_some_traj_len (cfg : EnvConfig) (s s' : EnvState) (a : Action)
    (out : StepOut) (h : step cfg s a = (s', some out)) :
    s'.net_worth.length = s.net_worth.length + 1 ∧
    s'.net_worth_long.length = s.net_worth_long.length + 1 := by
  obtain ⟨act, pr, -, -, hs', -, -⟩ := step_some_inv cfg s s' a out h
  subst hs'
  simp

/-- Trajectory growth across a sequence of completed `step` calls. -/
theorem run_steps_traj_len :
    ∀ (acts : List Action) (cfg : EnvConfig) (s s' : EnvState),
      run_steps cfg s acts = some s' →
      s'.net_worth.length = s.net_worth.length + acts.length ∧
      s'.net_worth_long.length = s.net_worth_long.length + acts.length := by
  intro acts
  induction acts with
  | nil =>
    intro cfg s s' h
    unfold run_steps at h
    injection h with h
    subst h
    simp
  | cons a rest ih =>
    intro cfg s s' h
    unfold run_steps at h
    cases hst : step cfg s a with
    | mk s1 o =>
      rw [hst] at h
      cases o with
      | none => simp at h
      | some out =>
        dsimp only at h
        have h1 := step_some_traj_len cfg s s1 a out hst
        have h2 := ih cfg s1 s' h
        simp only [List.length_cons]
        omega

/-- Rounding to nine decimals preserves nonnegativity. -/
theorem round9_nonneg (q : ℚ) (hq : 0 ≤ q) : 0 ≤ round9 q := by
  have h0 : (0 : ℤ) ≤ ⌊q * 10 ^ 9⌋ := Int.floor_nonneg.mpr (by positivity)
  have hd : (0 : ℚ) ≤ 10 ^ 9 := by positivity
  simp only [round9, roundHalfEven]
  split_ifs
  · exact div_nonneg (by exact_mod_cast h0) hd
  · exact div_nonneg (by exact_mod_cast (by omega : (0 : ℤ) ≤ ⌊q * 10 ^ 9⌋ + 1)) hd
  · exact div_nonneg (by exact_mod_cast h0) hd
  · exact div_nonneg (by exact_mod_cast (by omega : (0 : ℤ) ≤ ⌊q * 10 ^ 9⌋ + 1)) hd

/-! ## Evaluations of the example environment -/

/-- The first example `step` call: trades at the row-1 close price 2, zero
reward, `done = true` by data exhaustion (`current_step = 2 = n_obs - 1`). -/
theorem ex_step_eval : step exCfg exS0 exAct = (exS1, some exOut) := by
  unfold step _take_action
  norm_num [action_mapping, prices_at, _next_observation, actions_long, n_obs,
    exCfg, exS0, exAct, exTrade, exP0, exP1, exRows, exS1, exOut, format_action]

/-- Calling `step` again on the terminal state `exS1`: both ledgers trade at
the row-2 close price, both trajectories grow, the cursor advances to 3, and
only then does the observation lookup fail. -/
theorem ex_step2_eval : step exCfg exS1 exAct = (exS2, none) := by
  unfold step _take_action
  norm_num [action_mapping, prices_at, _next_observation, actions_long, n_obs,
    exCfg, exS1, exAct, exTrade, exP0, exP1, exP2, exRows, exS2, format_action]

/-- The freshly reset example state is not terminal. -/
theorem ex_not_done0 : ¬ done_of exCfg exS0 := by
  intro h
  rcases h with h | h
  · have := round9_nonneg 100 (by norm_num)
    simp only [exS0] at h
    linarith
  · simp only [exS0, exCfg, n_obs, exRows, List.length_cons, List.length_nil] at h
    omega

/-- The example state after one step is terminal (data exhaustion). -/
theorem ex_done1 : done_of exCfg exS1 := Or.inr (by decide)

/-- Resetting the example environment produces exactly `exS0`. -/
theorem ex_reset_eval : (reset exCfg exS0).1 = exS0 := rfl

/-- A one-call run of the example environment from reset. -/
theorem ex_run1 : run_steps exCfg (reset exCfg exS0).1 [exAct] = some exS1 := by
  rw [ex_reset_eval]
  unfold run_steps
  rw [ex_step_eval]
  rfl

/-- Entrywise description of `List.zipWith`. -/
theorem zipWith_getElem? (f : ℚ → ℚ → ℚ) :
    ∀ (as bs : List ℚ) (i : ℕ) (x y : ℚ),
      as[i]? = some x → bs[i]? = some y →
      (List.zipWith f as bs)[i]? = some (f x y) := by
  intro as
  induction as with
  | nil => intro bs i x y hx hy; simp at hx
  | cons a t ih =>
    intro bs i x y hx hy
    cases bs with
    | nil => simp at hy
    | cons b u =>
      cases i with
      | zero =>
        simp only [List.getElem?_cons_zero, Option.some.injEq] at hx hy
        subst hx; subst hy
        simp [List.zipWith_cons_cons]
      | succ n =>
        simp only [List.getElem?_cons_succ] at hx hy
        simpa [List.zipWith_cons_cons] using ih u n x y hx hy

/-- Summing a constant over a list. -/
theorem sum_map_const_real (l : List ℝ) (c : ℝ) :
    (l.map fun _ => c).sum = l.length * c := by
  induction l with
  | nil => simp
  | cons a t ih =>
    simp only [List.map_cons, List.sum_cons, ih, List.length_cons]
    push_cast
    ring

/-! ## The claims -/

/-- Claim C3: a valid `step` call (pre-state not terminal, call completed)
advances `current_step` by exactly 1 — hence strictly increasing across valid
calls — and keeps it at most `n_obs - 1`; both ledgers' trades are executed
at the prices read from the feature-table row at the pre-advance cursor,
while the returned observation is assembled from the row at the post-advance
cursor. -/
theorem claim_C3 (cfg : EnvConfig) (s s' : EnvState) (a : Action)
    (out : StepOut) (act pr : List (String × ℚ))
    (hnd : ¬ done_of cfg s)
    (hm : action_mapping cfg a = some act)
    (hp : prices_at cfg.stocks s.current_step = some pr)
    (h : step cfg s a = (s', some out)) :
    s'.current_step = s.current_step + 1 ∧
    (s'.current_step : ℤ) ≤ (n_obs cfg : ℤ) - 1 ∧
    s'.agent = cfg.make_trade s.agent act pr ∧
    s'.long = cfg.make_trade s.long (actions_long cfg) pr ∧
    _next_observation cfg.stocks (s.current_step + 1) = some out.obs := by
  obtain ⟨act', pr', hm', hp', hs', hobs, -⟩ := step_some_inv cfg s s' a out h
  have hact : act' = act := Option.some.inj (hm'.symm.trans hm)
  have hpr : pr' = pr := Option.some.inj (hp'.symm.trans hp)
  subst hact
  subst hpr
  subst hs'
  refine ⟨rfl, ?_, rfl, rfl, hobs⟩
  have h2 : ¬ ((s.current_step : ℤ) ≥ (n_obs cfg : ℤ) - 1) :=
    fun hh => hnd (Or.inr hh)
  show ((s.current_step + 1 : ℕ) : ℤ) ≤ (n_obs cfg : ℤ) - 1
  push_cast
  omega

/-- Claim C4: the `done` flag of a completed `step` call is true exactly when
the agent balance rounded to 9 decimals is strictly negative or the
post-advance cursor has reached `n_obs - 1`; insolvency is reported through
this flag, not through a failure. -/
theorem claim_C4 (cfg : EnvConfig) (s s' : EnvState) (a : Action)
    (out : StepOut) (h : step cfg s a = (s', some out)) :
    out.done = true ↔
      (round9 s'.balance < 0 ∨
        (s'.current_step : ℤ) ≥ (n_obs cfg : ℤ) - 1) := by
  obtain ⟨act, pr, -, -, hs', -, hdone⟩ := step_some_inv cfg s s' a out h
  subst hs'
  rw [hdone]
  dsimp only
  split_ifs with hc
  · exact iff_of_true rfl hc
  · exact iff_of_false (by simp) hc

/-- Claim C5: a non-mapping action is converted by positionally zipping it
against the fixed ordering `(*assets, "_out")`, and on a length mismatch the
call fails inside action formatting with no state change at all. -/
theorem claim_C5 :
    (∀ (cfg : EnvConfig) (l : List ℚ), l.length = (positions cfg).length →
        format_action (positions cfg) l = some ((positions cfg).zip l)) ∧
    (∀ (cfg : EnvConfig) (s : EnvState) (l : List ℚ),
        l.length ≠ (positions cfg).length →
        step cfg s (.seq l) = (s, none)) := by
  constructor
  · intro cfg l h
    unfold format_action
    rw [if_pos h.symm]
  · intro cfg s l h
    apply step_of_format_none
    simp only [action_mapping, format_action]
    rw [if_neg fun hh => h hh.symm]

/-- Witness for claim C3 on the example environment. -/
theorem claim_C3_witness :
    exS1.current_step = exS0.current_step + 1 ∧
    (exS1.current_step : ℤ) ≤ (n_obs exCfg : ℤ) - 1 ∧
    exS1.agent = exCfg.make_trade exS0.agent [("aaa", 1), ("_out", 0)] [("aaa", 2)] ∧
    exS1.long = exCfg.make_trade exS0.long (actions_long exCfg) [("aaa", 2)] ∧
    _next_observation exCfg.stocks (exS0.current_step + 1) = some exOut.obs :=
  claim_C3 exCfg exS0 exS1 exAct exOut [("aaa", 1), ("_out", 0)] [("aaa", 2)]
    ex_not_done0 rfl rfl ex_step_eval

/-- Witness for claim C4 on the example environment. -/
theorem claim_C4_witness :
    exOut.done = true ↔
      (round9 exS1.balance < 0 ∨
        (exS1.current_step : ℤ) ≥ (n_obs exCfg : ℤ) - 1) :=
  claim_C4 exCfg exS0 exS1 exAct exOut ex_step_eval

/-- Witness for claim C5 on the example environment: a matching-length dense
action zips against `("aaa", "_out")`, a short one fails with the state
untouched. -/
theorem claim_C5_witness :
    format_action (positions exCfg) [5, 7] = some [("aaa", 5), ("_out", 7)] ∧
    step exCfg exS0 (.seq [5]) = (exS0, none) :=
  ⟨claim_C5.1 exCfg [5, 7] rfl, claim_C5.2 exCfg exS0 [5] (by decide)⟩

/-- Claim C9: after a reset both net-worth trajectories hold exactly
`[balance_init]`, and after `k` completed `step` calls both have length
`k + 1` — they are appended to exactly once per step, in lock-step. -/
theorem claim_C9 (cfg : EnvConfig) (s : EnvState) (acts : List Action)
    (s' : EnvState) (h : run_steps cfg (reset cfg s).1 acts = some s') :
    (reset cfg s).1.net_worth = [cfg.balance_init] ∧
    (reset cfg s).1.net_worth_long = [cfg.balance_init] ∧
    s'.net_worth.length = acts.length + 1 ∧
    s'.net_worth_long.length = acts.length + 1 := by
  obtain ⟨ha, hb⟩ := run_steps_traj_len acts cfg (reset cfg s).1 s' h
  have h1 : (reset cfg s).1.net_worth.length = 1 := rfl
  have h2 : (reset cfg s).1.net_worth_long.length = 1 := rfl
  exact ⟨rfl, rfl, by omega, by omega⟩

/-- Claim C10 (implicit behaviour): a mapping action is forwarded verbatim
to the agent ledger's trade execution — `step` never checks its keys or its
length against the fixed position ordering; only non-mapping actions go
through `format_action`. -/
theorem claim_C10 (cfg : EnvConfig) (s : EnvState) (m pr : List (String × ℚ))
    (hp : prices_at cfg.stocks s.current_step = some pr) :
    action_mapping cfg (.dict m) = some m ∧
    (step cfg s (.dict m)).1.agent = cfg.make_trade s.agent m pr ∧
    (step cfg s (.dict m)).1.long =
      cfg.make_trade s.long (actions_long cfg) pr := by
  refine ⟨rfl, ?_, ?_⟩
  · rw [step_fst_of_some cfg s (.dict m) m pr rfl hp]
  · rw [step_fst_of_some cfg s (.dict m) m pr rfl hp]

/-- Claim C1, amended: the code has no `done` guard.  Whenever the action
formats and the price row exists — in particular on any state already
reported terminal — a further `step` call still executes both ledgers'
trades at the current cursor, appends to both trajectories, and advances the
cursor by one. -/
theorem claim_C1 (cfg : EnvConfig) (s : EnvState) (a : Action)
    (act pr : List (String × ℚ))
    (_hdone : done_of cfg s)
    (hm : action_mapping cfg a = some act)
    (hp : prices_at cfg.stocks s.current_step = some pr) :
    (step cfg s a).1.current_step = s.current_step + 1 ∧
    (step cfg s a).1.agent = cfg.make_trade s.agent act pr ∧
    (step cfg s a).1.long = cfg.make_trade s.long (actions_long cfg) pr ∧
    (step cfg s a).1.net_worth =
      s.net_worth ++ [(cfg.make_trade s.agent act pr).net_worth] ∧
    (step cfg s a).1.net_worth_long =
      s.net_worth_long ++
        [(cfg.make_trade s.long (actions_long cfg) pr).net_worth] := by
  rw [step_fst_of_some cfg s a act pr hm hp]
  exact ⟨rfl, rfl, rfl, rfl, rfl⟩

/-- Counterexample to claim C1 as stated: on the example environment the
first `step` returns `done = true`, yet a further `step` call advances the
cursor and mutates the agent ledger (it fails only afterwards, in the
observation lookup). -/
theorem claim_C1_counterexample :
    step exCfg exS0 exAct = (exS1, some exOut) ∧
    exOut.done = true ∧
    (step exCfg exS1 exAct).1.current_step = exS1.current_step + 1 ∧
    (step exCfg exS1 exAct).1.agent ≠ exS1.agent ∧
    (step exCfg exS1 exAct).2 = none := by
  refine ⟨ex_step_eval, rfl, ?_, ?_, ?_⟩
  · rw [ex_step2_eval]
    rfl
  · rw [ex_step2_eval]
    decide
  · rw [ex_step2_eval]

/-- Witness for the amended claim C1: a `step` on the terminal example state
`exS1` still trades at the row-2 prices, appends to both trajectories, and
advances the cursor. -/
theorem claim_C1_witness :
    (step exCfg exS1 exAct).1.current_step = exS1.current_step + 1 ∧
    (step exCfg exS1 exAct).1.agent =
      exCfg.make_trade exS1.agent [("aaa", 1), ("_out", 0)] [("aaa", 3)] ∧
    (step exCfg exS1 exAct).1.long =
      exCfg.make_trade exS1.long (actions_long exCfg) [("aaa", 3)] ∧
    (step exCfg exS1 exAct).1.net_worth =
      exS1.net_worth ++
        [(exCfg.make_trade exS1.agent [("aaa", 1), ("_out", 0)] [("aaa", 3)]).net_worth] ∧
    (step exCfg exS1 exAct).1.net_worth_long =
      exS1.net_worth_long ++
        [(exCfg.make_trade exS1.long (actions_long exCfg) [("aaa", 3)]).net_worth] :=
  claim_C1 exCfg exS1 exAct [("aaa", 1), ("_out", 0)] [("aaa", 3)]
    ex_done1 rfl rfl

/-- Claim C2, evaluated at the failing input: the scaler scan index is shared
across assets.  Asset `"a"` has a zero in its row 0, so its scan advances the
shared index to 1; asset `"b"` is then seeded from its row 1 (`[9]`) although
its episode-start row 0 (`[5]`) contains no zero — contradicting the claimed
per-asset scan from the episode start row, which would yield `[5]`. -/
theorem claim_C2 :
    maxscale_reset_scalers [("a", [[0], [7]]), ("b", [[5], [9]])] =
      some [("a", [7]), ("b", [9])] ∧
    ([[5], [9]] : List (List ℚ))[1 - 1]? = some [5] ∧
    (0 : ℚ) ∉ ([5] : List ℚ) ∧
    ([9] : List ℚ) ≠ [5] := by
  refine ⟨by decide, rfl, by decide, by decide⟩

/-- Witness for claim C9: one completed call on the example environment. -/
theorem claim_C9_witness :
    (reset exCfg exS0).1.net_worth = [exCfg.balance_init] ∧
    (reset exCfg exS0).1.net_worth_long = [exCfg.balance_init] ∧
    exS1.net_worth.length = [exAct].length + 1 ∧
    exS1.net_worth_long.length = [exAct].length + 1 :=
  claim_C9 exCfg exS0 [exAct] exS1 ex_run1

/-- Witness for claim C10: a mapping with duplicate and unknown keys and the
wrong length is still handed verbatim to the ledger. -/
theorem claim_C10_witness :
    action_mapping exCfg (.dict [("zzz", 5), ("zzz", 7), ("qqq", -3)]) =
      some [("zzz", 5), ("zzz", 7), ("qqq", -3)] ∧
    (step exCfg exS0 (.dict [("zzz", 5), ("zzz", 7), ("qqq", -3)])).1.agent =
      exCfg.make_trade exS0.agent [("zzz", 5), ("zzz", 7), ("qqq", -3)]
        [("aaa", 2)] ∧
    (step exCfg exS0 (.dict [("zzz", 5), ("zzz", 7), ("qqq", -3)])).1.long =
      exCfg.make_trade exS0.long (actions_long exCfg) [("aaa", 2)] :=
  claim_C10 exCfg exS0 [("zzz", 5), ("zzz", 7), ("qqq", -3)] [("aaa", 2)] rfl

/-- Counterexample to claim C6 as stated: with an all-negative feature
history the running maximum `-2` has already seen the true maximum (the raw
value `-4` does not exceed it and leaves it unchanged), yet the normalized
component is `-4 / -2 = 2 > 1`. -/
theorem claim_C6_counterexample :
    maxscale_ticker_obs [-4] [-2] = some ([2], [-2]) ∧
    (-4 : ℚ) ≤ -2 ∧ ¬ ((2 : ℚ) ≤ 1) := by
  refine ⟨?_, by norm_num, by norm_num⟩
  norm_num [maxscale_ticker_obs, _update_scalers, scale_row]

/-- Claim C6, amended: for every asset and feature component the running
maximum is updated to the elementwise maximum with the just-observed raw row
(hence never decreases), the update happens only after the observation was
built from the pre-update scalers, and the normalized component is bounded
above by 1 once the true maximum has been seen *provided that maximum is
positive*. -/
theorem claim_C6 :
    (∀ (scalers row s' : List ℚ) (j : ℕ) (m x : ℚ),
        _update_scalers scalers row = some s' →
        scalers[j]? = some m → row[j]? = some x →
        s'[j]? = some (max m x) ∧ m ≤ max m x) ∧
    (∀ (row scalers : List ℚ) (j : ℕ) (x m : ℚ),
        row[j]? = some x → scalers[j]? = some m →
        0 < m → x ≤ m →
        (scale_row row scalers)[j]? = some (x / m) ∧ x / m ≤ 1) ∧
    (∀ (row scalers obs s' : List ℚ),
        maxscale_ticker_obs row scalers = some (obs, s') →
        obs = scale_row row scalers ∧ _update_scalers scalers row = some s') := by
  refine ⟨?_, ?_, ?_⟩
  · intro scalers row s' j m x hu hm hx
    have hs' : s' = List.zipWith max scalers row := by
      unfold _update_scalers at hu
      split_ifs at hu
      exact (Option.some.inj hu).symm
    subst hs'
    exact ⟨zipWith_getElem? max scalers row j m x hm hx, le_max_left m x⟩
  · intro row scalers j x m hx hm h0 hxm
    unfold scale_row
    exact ⟨zipWith_getElem? (fun x sv => x / sv) row scalers j x m hx hm,
      (div_le_one h0).mpr hxm⟩
  · intro row scalers obs s' h
    unfold maxscale_ticker_obs at h
    cases hu : _update_scalers scalers row with
    | none => rw [hu] at h; simp at h
    | some t =>
      rw [hu] at h
      injection h with h
      injection h with h1 h2
      subst h2
      exact ⟨h1.symm, rfl⟩

/-- Witness for the amended claim C6 on concrete vectors. -/
theorem claim_C6_witness :
    (([3] : List ℚ)[0]? = some (max 2 3) ∧ (2 : ℚ) ≤ max 2 3) ∧
    ((scale_row [1] [2])[0]? = some (1 / 2) ∧ (1 : ℚ) / 2 ≤ 1) ∧
    (scale_row [1] [2] = scale_row [1] [2] ∧
      _update_scalers [2] [1] = some (List.zipWith max [2] [1])) :=
  ⟨claim_C6.1 [2] [3] [3] 0 2 3 (by decide) rfl rfl,
   claim_C6.2.1 [1] [2] 0 1 2 rfl rfl (by decide) (by decide),
   claim_C6.2.2 [1] [2] (scale_row [1] [2]) (List.zipWith max [2] [1]) rfl⟩

/-- Claim C7: the shaped reward of the normalized and max-scale variants is
the relative profit edge plus the relative net-worth edge minus one penalty
of `1 / sqrt (n_assets + 1) + 1` for every asset whose held quantity is
strictly below one unit. -/
theorem claim_C7 (n_stocks : ℕ) (agent long : PortfolioR) (ap lp : ℝ)
    (ha : agent.profits.getLast? = some ap)
    (hl : long.profits.getLast? = some lp) :
    _reward_fn n_stocks agent long =
      some ((ap - lp) / |lp| +
        (agent.net_worth - long.net_worth) / |long.net_worth| -
        ((agent.positions_full.map Prod.snd).filter
            (fun i => decide (i < 1))).length *
          (1 / Real.sqrt (n_stocks + 1) + 1)) := by
  unfold _reward_fn
  rw [ha, hl]
  dsimp only
  congr 1
  rw [sum_map_const_real
    ((agent.positions_full.map Prod.snd).filter fun i => decide (i < 1))
    (-(1 / Real.sqrt (n_stocks + 1) + 1))]
  ring

/-- Witness for claim C7 on a concrete pair of ledgers: one asset held at
quantity 0 (below one unit). -/
theorem claim_C7_witness :
    _reward_fn 1 ⟨5, [("a", 0)], [2]⟩ ⟨4, [("a", 3)], [3]⟩ =
      some (((2 : ℝ) - 3) / |(3 : ℝ)| +
        ((5 : ℝ) - 4) / |(4 : ℝ)| -
        (([("a", (0 : ℝ))].map Prod.snd).filter
            (fun i => decide (i < 1))).length *
          (1 / Real.sqrt ((1 : ℕ) + 1) + 1)) :=
  claim_C7 1 ⟨5, [("a", 0)], [2]⟩ ⟨4, [("a", 3)], [3]⟩ 2 3 rfl rfl

/-- Claim C8: the price-per-share signal is `0` whenever `shares < 1`,
regardless of the other inputs; for `shares ≥ 1` it is the logarithm of
`(net_worth - balance) * portion / shares` except that a zero argument
returns `0`. -/
theorem claim_C8 (net_worth balance shares portion : ℝ) :
    (shares < 1 → _price_per_share net_worth balance shares portion = 0) ∧
    (1 ≤ shares →
      _price_per_share net_worth balance shares portion =
        if (net_worth - balance) * portion / shares = 0 then 0
        else Real.log ((net_worth - balance) * portion / shares)) := by
  constructor
  · intro h
    unfold _price_per_share
    rw [if_neg (not_le.mpr h)]
  · intro h
    unfold _price_per_share
    rw [if_pos h]

/-- Witness for claim C8 at `shares = 1/2 < 1`. -/
theorem claim_C8_witness :
    _price_per_share 5 3 (1 / 2) 2 = 0 :=
  (claim_C8 5 3 (1 / 2) 2).1 one_half_lt_one

end BgTrade
